import Mathlib

/-
Verification of the iddaa aggregation pipeline (MatchesService) against its
design specification.  The definitions below are a shallow embedding of the
functions in src/src/lib/experiments/tracking.ts (the MatchesService class):
the cached fetch helper, the sportradar token manager, the event filters,
the market merge step, the market-config lookup map, and the batching
orchestrator.  JavaScript truthiness and nullish coalescing are made
explicit; HTTP effects are represented by an outcome parameter and the
in-process cache by explicit state passing.
-/

namespace Iddaa

/-- Market as carried by the sportsbook events feed (fields i, t, st). -/
structure Market where
  i : Nat
  t : Nat
  st : Nat
deriving DecidableEq, Repr

/-- JS expression `a || b` on array-valued operands: undefined and null are
falsy, while every array (the empty array included) is truthy. -/
def jsOr {α : Type} (a b : Option (List α)) : Option (List α) :=
  match a with
  | some xs => some xs
  | none => b

/-- Event from the events feed, restricted to the fields the verified code
paths read: ids (i with fallback id), betradar id bri, status s, kickoff d,
competition ci, home name hn, markets m. -/
structure MatchEvent where
  i : Option Nat
  id : Option Nat
  bri : Option Nat
  s : Option Int
  d : Option Int
  ci : Option Nat
  hn : Option String
  m : Option (List Market)
deriving DecidableEq, Repr

/-- MatchesService.getEventId: `event?.i ?? event.id` (nullish coalescing,
so a present 0 does not fall through) then `rawId ? String(rawId) : ""`
(0 is falsy and maps to the empty string). -/
def getEventId (e : MatchEvent) : String :=
  match e.i.orElse (fun _ => e.id) with
  | some n => if n = 0 then "" else toString n
  | none => ""

/-! ### Cached fetch helper (MatchesService.fetchJson) -/

/-- One cache entry: `{ value, expires }`. -/
structure CacheEntry (T : Type) where
  value : T
  expires : Int
deriving DecidableEq, Repr

/-- The cache map keyed by request URL. -/
def CacheMap (T : Type) := String → Option (CacheEntry T)

/-- Outcome of the underlying HTTP fetch for one call: the fetch promise
rejects (network error), the response is non-2xx, res.json() rejects
(parse error), or a JSON value is produced. -/
inductive FetchOutcome (T : Type) where
  | netError
  | httpError
  | parseError
  | success (value : T)
deriving DecidableEq, Repr

/-- Result of one fetchJson call: either an exception escapes the helper
(threw) or a value (null or the JSON payload) is returned. -/
inductive FetchRes (T : Type) where
  | threw
  | value (v : Option T)
deriving DecidableEq, Repr

/-- The observable effect of one fetchJson call: its result, the cache
afterwards, and whether the underlying fetch was invoked. -/
structure FetchStep (T : Type) where
  result : FetchRes T
  cache : CacheMap T
  fetched : Bool

/-- JS condition `ttlMs && ttlMs > 0` on the optional ttl argument. -/
def ttlActive (ttlMs : Option Int) : Bool :=
  match ttlMs with
  | some t => decide (t > 0)
  | none => false

/-- Store `(value, now + ttl)` under the url key. -/
def cacheInsert {T : Type} (c : CacheMap T) (url : String) (e : CacheEntry T) :
    CacheMap T :=
  fun k => if k = url then some e else c k

/-- The part of fetchJson after the cache check: perform the fetch.  A
rejected fetch or a rejected res.json() is not caught inside the helper, so
it surfaces as `threw`; a non-2xx response returns null before any cache
write; on success the value is cached only when the ttl is active. -/
def fetchFresh {T : Type} (c : CacheMap T) (now : Int) (url : String)
    (ttlMs : Option Int) (outcome : FetchOutcome T) : FetchStep T :=
  match outcome with
  | FetchOutcome.netError => ⟨FetchRes.threw, c, true⟩
  | FetchOutcome.httpError => ⟨FetchRes.value none, c, true⟩
  | FetchOutcome.parseError => ⟨FetchRes.threw, c, true⟩
  | FetchOutcome.success v =>
      if ttlActive ttlMs then
        ⟨FetchRes.value (some v), cacheInsert c url ⟨v, now + ttlMs.getD 0⟩, true⟩
      else ⟨FetchRes.value (some v), c, true⟩

/-- MatchesService.fetchJson: when the ttl is active and a live (non-expired)
entry exists for the url, return it without fetching; otherwise fetch. -/
def fetchJson {T : Type} (c : CacheMap T) (now : Int) (url : String)
    (ttlMs : Option Int) (outcome : FetchOutcome T) : FetchStep T :=
  if ttlActive ttlMs then
    match c url with
    | some entry =>
        if entry.expires > now then ⟨FetchRes.value (some entry.value), c, false⟩
        else fetchFresh c now url ttlMs outcome
    | none => fetchFresh c now url ttlMs outcome
  else fetchFresh c now url ttlMs outcome

/-- True when fetchJson would serve this call from the cache. -/
def cacheHit {T : Type} (c : CacheMap T) (url : String) (now : Int)
    (ttlMs : Option Int) : Bool :=
  ttlActive ttlMs &&
    match c url with
    | some entry => decide (entry.expires > now)
    | none => false

/-! ### Token manager (MatchesService.fetchSportradarToken) -/

/-- The digits parsed by the regex capture group, folded as parseInt does on
an all-digit string. -/
def digitsToNat (cs : List Char) : Nat :=
  cs.foldl (fun n c => n * 10 + (c.toNat - 48)) 0

/-- Attempt to match `exp=` followed by at least one digit at the head of
the character list; on success return the parsed maximal digit run. -/
def matchExpAt (cs : List Char) : Option Nat :=
  match cs with
  | 'e' :: 'x' :: 'p' :: '=' :: rest =>
      let ds := rest.takeWhile Char.isDigit
      if ds = [] then none else some (digitsToNat ds)
  | _ => none

/-- Left-to-right regex scan for the first match of the exp pattern. -/
def findExp : List Char → Option Nat
  | [] => none
  | c :: rest =>
      match matchExpAt (c :: rest) with
      | some n => some n
      | none => findExp rest

/-- Models `token.match(/exp=(\d+)/)` followed by parseInt of the capture:
the first occurrence of `exp=` immediately followed by one or more digits. -/
def extractExp (s : String) : Option Nat :=
  findExp s.data

/-- JS truthiness of `this.sportradarToken` or the env token: non-null and
not the empty string. -/
def strTruthy (s : Option String) : Bool :=
  match s with
  | some v => !(v == "")
  | none => false

/-- Process-wide token state: the stored token string and its expiry in
milliseconds. -/
structure TokenState where
  sportradarToken : Option String
  tokenExpiry : Int
deriving DecidableEq, Repr

/-- The hardcoded fallback bearer token from the source, with its embedded
expiry claim. -/
def hardcodedToken : String :=
  "exp=1763848591~acl=/*~data=eyJvIjoiaHR0cHM6Ly93d3cuaWRkYWEuY29tIiwiYSI6IjAyN2Q4MDhhZWI2MDBmOTMwYmFhMDBjNDU4M2U3OGFlIiwiYWN0Ijoib3JpZ2luY2hlY2siLCJvc3JjIjoib3JpZ2luIn0~hmac=2d419e8100f0783eb12173768417abfd4118c19e69619bc1915653b2f2084a3c"

/-- Expiry adopted with a token: `parseInt(expMatch[1]) * 1000` when the exp
pattern matches, otherwise the stored expiry is left unchanged (the code
skips the assignment when the regex fails). -/
def tokenAdoptExpiry (st : TokenState) (tok : String) : Int :=
  match extractExp tok with
  | some e => (e : Int) * 1000
  | none => st.tokenExpiry

/-- The branch of fetchSportradarToken taken when no env token is configured:
reuse the stored token while truthy and unexpired, otherwise adopt the
hardcoded fallback token. -/
def tokenFallback (st : TokenState) (now : Int) : Option String × TokenState :=
  if strTruthy st.sportradarToken ∧ st.tokenExpiry > now then
    (st.sportradarToken, st)
  else
    (some hardcodedToken, ⟨some hardcodedToken, tokenAdoptExpiry st hardcodedToken⟩)

/-- MatchesService.fetchSportradarToken.  The env token, when truthy, is
reused while identical to the stored token and unexpired, and otherwise
adopted (expiry parsed from the embedded claim when present) and returned.
The surrounding try/catch returns null only when an exception is raised,
and none of the modeled operations raises. -/
def fetchSportradarToken (st : TokenState) (envToken : Option String)
    (now : Int) : Option String × TokenState :=
  match envToken with
  | some env =>
      if env = "" then tokenFallback st now
      else if st.sportradarToken = some env ∧ st.tokenExpiry > now then
        (st.sportradarToken, st)
      else
        (some env, ⟨some env, tokenAdoptExpiry st env⟩)
  | none => tokenFallback st now

/-! ### Event status filters -/

/-- `ev.s ?? 0`. -/
def eventStatus (e : MatchEvent) : Int :=
  e.s.getD 0

/-- The includeUpcoming filter predicate at lines 583-587:
`if (includeUpcoming && status === 0) return true; return status > 0;`. -/
def upcomingPass (includeUpcoming : Bool) (e : MatchEvent) : Bool :=
  if includeUpcoming && (eventStatus e == 0) then true
  else decide (eventStatus e > 0)

/-- The filter step producing the `events` list fed to the orchestrator. -/
def filterUpcoming (includeUpcoming : Bool) (l : List MatchEvent) :
    List MatchEvent :=
  l.filter (upcomingPass includeUpcoming)

/-- The status-filter predicate at lines 766-774 of getPayload. -/
def statusPass (filterStatus : String) (e : MatchEvent) : Bool :=
  if filterStatus = "live" then decide (eventStatus e > 0) && !(eventStatus e == 2)
  else if filterStatus = "ht" then eventStatus e == 2
  else if filterStatus = "upcoming" then eventStatus e == 0
  else true

/-- The status-filter stage: applied only when the filter value differs
from `all`. -/
def filterByStatus (filterStatus : String) (l : List MatchEvent) :
    List MatchEvent :=
  if filterStatus = "all" then l else l.filter (statusPass filterStatus)

/-! ### Market merge (lines 699-708 of getPayload) -/

/-- Detail response data restricted to the two possible markets fields that
the merge reads: `details.data.m || details.data.markets`. -/
structure DetailData where
  m : Option (List Market)
  markets : Option (List Market)
deriving DecidableEq, Repr

/-- The markets field of the enriched event:
`enrichedEvent.m = event.m || []` at construction, then, when the detail
call produced data, `enrichedEvent.m = (details.data.m || details.data.markets) || event.m || []`. -/
def mergeMarkets (eventM : Option (List Market)) (detail : Option DetailData) :
    List Market :=
  match detail with
  | none => eventM.getD []
  | some d =>
      match jsOr d.m d.markets with
      | some dm => dm
      | none => eventM.getD []

/-! ### Market-config lookup map (storeConfig, lines 555-573) -/

/-- Static market-config entry restricted to the fields storeConfig reads:
subtype id mst, type mt (4 designates main markets), plus a name to tell
entries apart.  A zero id models a falsy (absent) field. -/
structure MarketConfigEntry where
  mst : Nat
  mt : Nat
  n : String
deriving DecidableEq, Repr

/-- The keys a config registers under: nothing when mst is falsy, otherwise
`String(mst)` and, when mt is truthy, the composite `mt_mst` key. -/
def keysOf (c : MarketConfigEntry) : List String :=
  if c.mst = 0 then []
  else if c.mt = 0 then [toString c.mst]
  else [toString c.mst, toString c.mt ++ "_" ++ toString c.mst]

/-- The lookup map under construction. -/
def ConfigMap := String → Option MarketConfigEntry

/-- `if (!marketConfigMap[k]) marketConfigMap[k] = config;` -/
def storeKey (m : ConfigMap) (c : MarketConfigEntry) (k : String) : ConfigMap :=
  match m k with
  | some _ => m
  | none => fun q => if q = k then some c else m q

/-- The storeConfig closure: register the config under each of its keys,
never overwriting an already-registered key. -/
def storeConfig (m : ConfigMap) (c : MarketConfigEntry) : ConfigMap :=
  (keysOf c).foldl (fun acc k => storeKey acc c k) m

/-- One step of the first registration pass, which processes only
main-typed (mt = 4) configs. -/
def storeMainStep (m : ConfigMap) (c : MarketConfigEntry) : ConfigMap :=
  if c.mt = 4 then storeConfig m c else m

/-- Build the marketConfigMap: a first forEach pass over the config list
registering the mt = 4 entries, then a second pass registering all. -/
def buildMarketConfigMap (configs : List MarketConfigEntry) : ConfigMap :=
  configs.foldl storeConfig (configs.foldl storeMainStep (fun _ => none))

/-! ### Enrichment orchestrator batching (lines 592-686 of getPayload) -/

/-- The eight per-event statistics/detail lookups issued for every event of
a batch. -/
inductive Endpoint where
  | details
  | statistics
  | headToHead
  | lastMatches
  | analysis
  | missingPlayers
  | refereeStats
  | standings
deriving DecidableEq, Repr

/-- The fixed list of the eight per-event call types, in the order their
promise arrays are created. -/
def Endpoint.all : List Endpoint :=
  [Endpoint.details, Endpoint.statistics, Endpoint.headToHead,
   Endpoint.lastMatches, Endpoint.analysis, Endpoint.missingPlayers,
   Endpoint.refereeStats, Endpoint.standings]

/-- One per-event lookup: either a network call keyed by the event id, or
the short-circuit `emptyPromise` used when the event lacks a usable id. -/
inductive Lookup where
  | network (ep : Endpoint) (eventId : String)
  | immediateNull (ep : Endpoint)
deriving DecidableEq, Repr

/-- The lookup one promise-array entry performs for one event:
`if (!eventId) return emptyPromise; return this.fetchJson(...)`. -/
def lookupFor (ep : Endpoint) (e : MatchEvent) : Lookup :=
  if getEventId e = "" then Lookup.immediateNull ep
  else Lookup.network ep (getEventId e)

/-- The eight lookups issued for a single event within its batch. -/
def eventLookups (e : MatchEvent) : List Lookup :=
  Endpoint.all.map (fun ep => lookupFor ep e)

/-- All lookups created for one batch, in creation order: one promise array
per call type, each mapping over the whole batch. -/
def batchLookups (b : List MatchEvent) : List Lookup :=
  (Endpoint.all.map (fun ep => b.map (lookupFor ep))).flatten

/-- The batch decomposition of the event list performed by the for loop
`for (let i = 0; i < events.length; i += 5) { batch = events.slice(i, i + 5); ... }`. -/
def batches {α : Type} : List α → List (List α)
  | [] => []
  | x :: rest => (x :: rest.take 4) :: batches (rest.drop 4)
termination_by l => l.length
decreasing_by simp; omega

/-- The batch sizes determined by the length of the event list alone. -/
def batchSizes : Nat → List Nat
  | 0 => []
  | n + 1 => min (n + 1) 5 :: batchSizes (n + 1 - 5)
termination_by n => n
decreasing_by omega

/-- The sequence of lookup groups issued by the orchestrator loop: the
lookups of batch N+1 are created only after batch N has been awaited and
merged, so the trace is the per-batch traces in batch order. -/
def orchestratorTrace : List MatchEvent → List (List Lookup)
  | [] => []
  | x :: rest =>
      batchLookups (x :: rest.take 4) :: orchestratorTrace (rest.drop 4)
termination_by l => l.length
decreasing_by simp; omega

/-! ### Helper lemmas about the batch decomposition -/

theorem batches_length {α : Type} (l : List α) :
    (batches l).length = (l.length + 4) / 5 := by
  induction l using batches.induct with
  | case1 => simp [batches]
  | case2 x rest ih =>
      rw [batches]
      simp only [List.length_cons, List.length_drop] at *
      omega

theorem batches_size_le {α : Type} (l : List α) :
    ∀ b ∈ batches l, b.length ≤ 5 := by
  induction l using batches.induct with
  | case1 => simp [batches]
  | case2 x rest ih =>
      intro b hb
      rw [batches] at hb
      rcases List.mem_cons.mp hb with rfl | hb2
      · simp only [List.length_cons, List.length_take]
        omega
      · exact ih b hb2

theorem batches_flatten {α : Type} (l : List α) : (batches l).flatten = l := by
  induction l using batches.induct with
  | case1 => simp [batches]
  | case2 x rest ih =>
      rw [batches]
      simp [ih]

theorem orchestratorTrace_eq_batches (l : List MatchEvent) :
    orchestratorTrace l = (batches l).map batchLookups := by
  induction l using orchestratorTrace.induct with
  | case1 => simp [orchestratorTrace, batches]
  | case2 x rest ih =>
      rw [orchestratorTrace, batches]
      simp [ih]

/-- C6: the orchestrator processes the filtered event list in ceil(n/5)
sequential batches of at most 5 events each (their concatenation being the
event list, a 6-event list giving batches of sizes 5 and 1); every batch
issues the fixed set of 8 per-event lookups for every one of its events
regardless of id validity, a lookup whose event lacks a usable id being the
immediate-null short-circuit instead of a network call; and the full lookup
trace is the per-batch traces in batch order. -/
theorem C6_orchestrator_batching (l : List MatchEvent) :
    (batches l).length = (l.length + 4) / 5
  ∧ (∀ b ∈ batches l, b.length ≤ 5)
  ∧ (batches l).flatten = l
  ∧ (l.length = 6 → (batches l).map List.length = [5, 1])
  ∧ (∀ b : List MatchEvent, (batchLookups b).length = 8 * b.length)
  ∧ (∀ e : MatchEvent, (eventLookups e).length = 8)
  ∧ (∀ e : MatchEvent, getEventId e = "" →
      eventLookups e = Endpoint.all.map Lookup.immediateNull)
  ∧ (∀ (e : MatchEvent) (ep : Endpoint), getEventId e ≠ "" →
      lookupFor ep e = Lookup.network ep (getEventId e))
  ∧ orchestratorTrace l = (batches l).map batchLookups := by
  refine ⟨batches_length l, batches_size_le l, batches_flatten l, ?_, ?_, ?_, ?_, ?_,
      orchestratorTrace_eq_batches l⟩
  · intro h
    rcases l with _ | ⟨a, _ | ⟨b, _ | ⟨c, _ | ⟨d, _ | ⟨e, _ | ⟨f, _ | ⟨g, t⟩⟩⟩⟩⟩⟩⟩ <;>
      simp only [List.length_cons, List.length_nil] at h <;>
      first
        | omega
        | simp [batches]
  · intro b
    simp only [batchLookups, Endpoint.all, List.map_cons, List.map_nil,
      List.flatten_cons, List.flatten_nil, List.length_append, List.length_map,
      List.length_nil]
    omega
  · intro e
    simp [eventLookups, Endpoint.all]
  · intro e he
    simp [eventLookups, lookupFor, he]
  · intro e ep he
    simp [lookupFor, he]

/-- C6 witness: a concrete 6-event list yields batch sizes [5, 1], and a
concrete event without a usable id yields only immediate-null lookups. -/
theorem C6_orchestrator_batching_witness :
    (batches (List.replicate 6
        (⟨none, none, none, none, none, none, none, none⟩ : MatchEvent))).map
        List.length = [5, 1]
  ∧ eventLookups (⟨none, none, none, none, none, none, none, none⟩ : MatchEvent)
      = Endpoint.all.map Lookup.immediateNull := by
  refine ⟨(C6_orchestrator_batching (List.replicate 6
      (⟨none, none, none, none, none, none, none, none⟩ : MatchEvent))).2.2.2.1 rfl,
    (C6_orchestrator_batching []).2.2.2.2.2.2.1
      (⟨none, none, none, none, none, none, none, none⟩ : MatchEvent) rfl⟩

/-! ### fetchJson: failure behaviour and cache idempotence -/

theorem fetchJson_no_hit {T : Type} (c : CacheMap T) (now : Int) (url : String)
    (ttl : Option Int) (o : FetchOutcome T)
    (h : cacheHit c url now ttl = false) :
    fetchJson c now url ttl o = fetchFresh c now url ttl o := by
  unfold cacheHit at h
  unfold fetchJson
  cases hact : ttlActive ttl with
  | false => simp [hact]
  | true =>
      rw [hact, Bool.true_and] at h
      simp only [hact, if_true]
      cases hcu : c url with
      | none => rfl
      | some entry =>
          rw [hcu] at h
          simp only [decide_eq_false_iff_not] at h
          simp [h]

/-- C1 (amended): through the cached fetch helper, a non-2xx HTTP response
yields null for that call and leaves the cache unchanged, and a missing-id
call never reaches the helper; but a network error or a JSON parse failure
is not caught inside the helper: it surfaces as an exception (absorbed only
at the route boundary), also leaving the cache unchanged. -/
theorem C1_fetch_failure_behavior {T : Type} (c : CacheMap T) (now : Int)
    (url : String) (ttl : Option Int) (h : cacheHit c url now ttl = false) :
    ((fetchJson c now url ttl FetchOutcome.httpError).result = FetchRes.value none
      ∧ (fetchJson c now url ttl FetchOutcome.httpError).cache = c
      ∧ (fetchJson c now url ttl FetchOutcome.httpError).fetched = true)
  ∧ ((fetchJson c now url ttl FetchOutcome.netError).result = FetchRes.threw
      ∧ (fetchJson c now url ttl FetchOutcome.netError).cache = c)
  ∧ ((fetchJson c now url ttl FetchOutcome.parseError).result = FetchRes.threw
      ∧ (fetchJson c now url ttl FetchOutcome.parseError).cache = c) := by
  rw [fetchJson_no_hit c now url ttl FetchOutcome.httpError h,
    fetchJson_no_hit c now url ttl FetchOutcome.netError h,
    fetchJson_no_hit c now url ttl FetchOutcome.parseError h]
  exact ⟨⟨rfl, rfl, rfl⟩, ⟨rfl, rfl⟩, ⟨rfl, rfl⟩⟩

/-- C1 witness: concrete empty cache, no ttl: the non-2xx outcome returns
null and leaves the cache unchanged. -/
theorem C1_fetch_failure_behavior_witness :
    cacheHit (T := Nat) (fun _ => none) ("u") 0 none = false
  ∧ (fetchJson (T := Nat) (fun _ => none) 0 ("u") none
      FetchOutcome.httpError).result = FetchRes.value none := by
  refine ⟨rfl, ?_⟩
  exact (C1_fetch_failure_behavior (fun _ => none) 0 ("u") none rfl).1.1

/-- C1 counterexample: at a concrete input (empty cache, caching disabled),
a network error and a JSON parse failure do not produce null: the helper
raises, so an exception does propagate out of the call, contrary to the
claim. -/
theorem C1_counterexample :
    (fetchJson (T := Nat) (fun _ => none) 0 ("u") none
        FetchOutcome.netError).result = FetchRes.threw
  ∧ (fetchJson (T := Nat) (fun _ => none) 0 ("u") none
        FetchOutcome.parseError).result = FetchRes.threw
  ∧ FetchRes.threw ≠ FetchRes.value (none : Option Nat) := by
  exact ⟨rfl, rfl, by decide⟩

/-- C5: with a positive ttl and no prior entry for the key, a first
successful call fetches and a second call within the ttl window is served
from the cache: the underlying fetch is invoked exactly once across the two
calls and the second call returns the first value, whatever the upstream
would have answered. -/
theorem C5_cache_single_fetch {T : Type} (c : CacheMap T) (url : String)
    (t1 t2 ttl : Int) (v : T) (o2 : FetchOutcome T)
    (h0 : c url = none) (h1 : ttl > 0) (h2 : t2 < t1 + ttl) :
    (fetchJson c t1 url (some ttl) (FetchOutcome.success v)).fetched = true
  ∧ (fetchJson c t1 url (some ttl) (FetchOutcome.success v)).result
      = FetchRes.value (some v)
  ∧ (fetchJson (fetchJson c t1 url (some ttl) (FetchOutcome.success v)).cache
      t2 url (some ttl) o2).fetched = false
  ∧ (fetchJson (fetchJson c t1 url (some ttl) (FetchOutcome.success v)).cache
      t2 url (some ttl) o2).result = FetchRes.value (some v) := by
  have hact : ttlActive (some ttl) = true := by
    simp only [ttlActive, decide_eq_true_eq]
    exact h1
  have e1 : fetchJson c t1 url (some ttl) (FetchOutcome.success v)
      = ⟨FetchRes.value (some v), cacheInsert c url ⟨v, t1 + ttl⟩, true⟩ := by
    simp [fetchJson, fetchFresh, hact, h0]
  rw [e1]
  have hc2 : cacheInsert c url ⟨v, t1 + ttl⟩ url = some ⟨v, t1 + ttl⟩ := by
    simp [cacheInsert]
  have e2 : fetchJson (cacheInsert c url ⟨v, t1 + ttl⟩) t2 url (some ttl) o2
      = ⟨FetchRes.value (some v), cacheInsert c url ⟨v, t1 + ttl⟩, false⟩ := by
    simp [fetchJson, hact, hc2, h2]
  rw [e2]
  exact ⟨rfl, rfl, rfl, rfl⟩

/-- C5 witness: a concrete first call at time 0 with ttl 10 fetches once;
the second call at time 5 does not fetch and returns the cached value even
though the upstream would have failed. -/
theorem C5_cache_single_fetch_witness :
    (fetchJson (T := Nat) (fun _ => none) 0 ("u") (some 10)
        (FetchOutcome.success 7)).fetched = true
  ∧ (fetchJson (fetchJson (T := Nat) (fun _ => none) 0 ("u") (some 10)
        (FetchOutcome.success 7)).cache 5 ("u") (some 10)
        FetchOutcome.netError).fetched = false
  ∧ (fetchJson (fetchJson (T := Nat) (fun _ => none) 0 ("u") (some 10)
        (FetchOutcome.success 7)).cache 5 ("u") (some 10)
        FetchOutcome.netError).result = FetchRes.value (some 7) := by
  have h := C5_cache_single_fetch (T := Nat) (fun _ => none) ("u") 0 5 10 7
      FetchOutcome.netError rfl (by decide) (by decide)
  exact ⟨h.1, h.2.2.1, h.2.2.2⟩

/-! ### Event filters -/

/-- C2: a status-0 event is absent from the filtered event list when
includeUpcoming is false and present when it is true, while events with
status above 0 pass the filter in both cases. -/
theorem C2_include_upcoming (l : List MatchEvent) (e : MatchEvent) :
    (eventStatus e = 0 →
        e ∉ filterUpcoming false l ∧ (e ∈ l → e ∈ filterUpcoming true l))
  ∧ (eventStatus e > 0 →
        (e ∈ filterUpcoming false l ↔ e ∈ l)
      ∧ (e ∈ filterUpcoming true l ↔ e ∈ l)) := by
  constructor
  · intro h0
    constructor
    · intro hmem
      rw [filterUpcoming, List.mem_filter] at hmem
      simp [upcomingPass, h0] at hmem
    · intro hl
      rw [filterUpcoming, List.mem_filter]
      exact ⟨hl, by simp [upcomingPass, h0]⟩
  · intro hpos
    have hp : ∀ b, upcomingPass b e = true := by
      intro b
      have hne : (eventStatus e == 0) = false := by
        simp only [beq_eq_false_iff_ne, ne_eq]
        omega
      simp [upcomingPass, hne, hpos]
    constructor <;>
      · rw [filterUpcoming, List.mem_filter]
        simp [hp]

/-- C2 witness: a concrete status-0 event is dropped when includeUpcoming
is false and kept when it is true. -/
theorem C2_include_upcoming_witness :
    (⟨none, none, none, some 0, none, none, none, none⟩ : MatchEvent)
        ∉ filterUpcoming false
          [⟨none, none, none, some 0, none, none, none, none⟩]
  ∧ (⟨none, none, none, some 0, none, none, none, none⟩ : MatchEvent)
        ∈ filterUpcoming true
          [⟨none, none, none, some 0, none, none, none, none⟩] := by
  have h := C2_include_upcoming
      [⟨none, none, none, some 0, none, none, none, none⟩]
      ⟨none, none, none, some 0, none, none, none, none⟩
  exact ⟨(h.1 rfl).1, (h.1 rfl).2 (List.mem_singleton.mpr rfl)⟩

/-- C7: the status-filter stage passes, for the filter value live, exactly
the events with status above 0 other than the half-time status 2; for ht,
exactly the events with status 2 (an event at the following status 3,
second half, is excluded); for upcoming, exactly status 0; and for all,
every event. -/
theorem C7_status_filter (l : List MatchEvent) (e : MatchEvent) :
    (e ∈ filterByStatus ("live") l ↔
        e ∈ l ∧ eventStatus e > 0 ∧ eventStatus e ≠ 2)
  ∧ (e ∈ filterByStatus ("ht") l ↔ e ∈ l ∧ eventStatus e = 2)
  ∧ (eventStatus e = 3 → e ∉ filterByStatus ("ht") l)
  ∧ (e ∈ filterByStatus ("upcoming") l ↔ e ∈ l ∧ eventStatus e = 0)
  ∧ filterByStatus ("all") l = l := by
  have hlive : ¬(("live" : String) = "all") := by decide
  have hht : ¬(("ht" : String) = "all") := by decide
  have hup : ¬(("upcoming" : String) = "all") := by decide
  refine ⟨?_, ?_, ?_, ?_, by rw [filterByStatus, if_pos rfl]⟩
  · rw [filterByStatus, if_neg hlive, List.mem_filter]
    simp [statusPass]
  · rw [filterByStatus, if_neg hht, List.mem_filter]
    simp [statusPass]
  · intro h3
    rw [filterByStatus, if_neg hht, List.mem_filter]
    simp [statusPass, h3]
  · rw [filterByStatus, if_neg hup, List.mem_filter]
    simp [statusPass]

/-- C7 witness: with a half-time event (status 2) and a second-half event
(status 3) in the list, the ht filter keeps the former and drops the
latter; the upcoming filter keeps only a status-0 event; all keeps the
whole list. -/
theorem C7_status_filter_witness :
    (⟨none, none, none, some 2, none, none, none, none⟩ : MatchEvent)
        ∈ filterByStatus ("ht")
          [⟨none, none, none, some 2, none, none, none, none⟩,
           ⟨none, none, none, some 3, none, none, none, none⟩]
  ∧ (⟨none, none, none, some 3, none, none, none, none⟩ : MatchEvent)
        ∉ filterByStatus ("ht")
          [⟨none, none, none, some 2, none, none, none, none⟩,
           ⟨none, none, none, some 3, none, none, none, none⟩]
  ∧ filterByStatus ("all")
        [⟨none, none, none, some 2, none, none, none, none⟩,
         ⟨none, none, none, some 3, none, none, none, none⟩]
      = [⟨none, none, none, some 2, none, none, none, none⟩,
         ⟨none, none, none, some 3, none, none, none, none⟩] := by
  refine ⟨(C7_status_filter
      [⟨none, none, none, some 2, none, none, none, none⟩,
       ⟨none, none, none, some 3, none, none, none, none⟩]
      ⟨none, none, none, some 2, none, none, none, none⟩).2.1.mpr
        ⟨by decide, rfl⟩, ?_, ?_⟩
  · exact (C7_status_filter
      [⟨none, none, none, some 2, none, none, none, none⟩,
       ⟨none, none, none, some 3, none, none, none, none⟩]
      ⟨none, none, none, some 3, none, none, none, none⟩).2.2.1 rfl
  · exact (C7_status_filter
      [⟨none, none, none, some 2, none, none, none, none⟩,
       ⟨none, none, none, some 3, none, none, none, none⟩]
      ⟨none, none, none, some 2, none, none, none, none⟩).2.2.2.2

/-! ### Detail-markets merge -/

/-- C3: when the detail call succeeded and its data carries a non-empty
markets array (under either field name, m taking precedence), the merged
markets equal that array exactly; when the detail data carries no markets
field at all, the merged markets are the base events markets. -/
theorem C3_detail_markets (base : Option (List Market)) (d : DetailData) :
    (∀ dm : List Market, jsOr d.m d.markets = some dm → dm ≠ [] →
        mergeMarkets base (some d) = dm)
  ∧ (d.m = none → d.markets = none →
        ∀ bm : List Market, base = some bm → mergeMarkets base (some d) = bm) := by
  constructor
  · intro dm hdm _
    simp [mergeMarkets, hdm]
  · intro hm hmk bm hb
    simp [mergeMarkets, jsOr, hm, hmk, hb]

/-- C3 witness: a concrete detail response with markets replaces the base
markets exactly; one with no markets field keeps the base markets. -/
theorem C3_detail_markets_witness :
    mergeMarkets (some [⟨1, 1, 1⟩]) (some ⟨some [⟨2, 2, 2⟩], none⟩) = [⟨2, 2, 2⟩]
  ∧ mergeMarkets (some [⟨1, 1, 1⟩]) (some ⟨none, none⟩) = [⟨1, 1, 1⟩] := by
  exact ⟨(C3_detail_markets (some [⟨1, 1, 1⟩]) ⟨some [⟨2, 2, 2⟩], none⟩).1
      [⟨2, 2, 2⟩] rfl (by decide),
    (C3_detail_markets (some [⟨1, 1, 1⟩]) ⟨none, none⟩).2 rfl rfl
      [⟨1, 1, 1⟩] rfl⟩

/-- C9: a present but empty markets array in the detail data is truthy, so
it replaces the base markets with the empty array; the fallback to the
base markets applies only when both markets fields are absent. -/
theorem C9_empty_markets_replace (bm : List Market) (d : DetailData) :
    (d.m = some [] → mergeMarkets (some bm) (some d) = [])
  ∧ (d.m = none → d.markets = some [] → mergeMarkets (some bm) (some d) = [])
  ∧ (d.m = none → d.markets = none → mergeMarkets (some bm) (some d) = bm) := by
  refine ⟨?_, ?_, ?_⟩
  · intro hm
    simp [mergeMarkets, jsOr, hm]
  · intro hm hmk
    simp [mergeMarkets, jsOr, hm, hmk]
  · intro hm hmk
    simp [mergeMarkets, jsOr, hm, hmk]

/-- C9 witness: a concrete base with one market is discarded by an empty
detail markets array, and kept when both detail markets fields are
absent. -/
theorem C9_empty_markets_replace_witness :
    mergeMarkets (some [⟨1, 1, 1⟩]) (some ⟨some [], none⟩) = []
  ∧ mergeMarkets (some [⟨1, 1, 1⟩]) (some ⟨none, some []⟩) = []
  ∧ mergeMarkets (some [⟨1, 1, 1⟩]) (some ⟨none, none⟩) = [⟨1, 1, 1⟩] := by
  exact ⟨(C9_empty_markets_replace [⟨1, 1, 1⟩] ⟨some [], none⟩).1 rfl,
    (C9_empty_markets_replace [⟨1, 1, 1⟩] ⟨none, some []⟩).2.1 rfl rfl,
    (C9_empty_markets_replace [⟨1, 1, 1⟩] ⟨none, none⟩).2.2 rfl rfl⟩

/-! ### Market-config lookup map -/

theorem storeKey_apply (m : ConfigMap) (c : MarketConfigEntry) (k q : String) :
    storeKey m c k q = if q = k ∧ m k = none then some c else m q := by
  unfold storeKey
  cases hm : m k with
  | some w => simp [hm]
  | none =>
      by_cases hq : q = k <;> simp [hm, hq]

theorem foldKeys_preserve (c : MarketConfigEntry) (ks : List String) :
    ∀ (m : ConfigMap) (k : String) (v : MarketConfigEntry), m k = some v →
      (ks.foldl (fun acc k2 => storeKey acc c k2) m) k = some v := by
  induction ks with
  | nil => intro m k v h; exact h
  | cons k2 rest ih =>
      intro m k v h
      rw [List.foldl_cons]
      apply ih
      rw [storeKey_apply]
      by_cases hk : k = k2
      · subst hk
        simp [h]
      · simp [hk, h]

theorem storeConfig_preserve (m : ConfigMap) (c : MarketConfigEntry)
    (k : String) (v : MarketConfigEntry) (h : m k = some v) :
    storeConfig m c k = some v :=
  foldKeys_preserve c (keysOf c) m k v h

theorem foldKeys_untouched (c : MarketConfigEntry) (ks : List String) :
    ∀ (m : ConfigMap) (k : String), k ∉ ks →
      (ks.foldl (fun acc k2 => storeKey acc c k2) m) k = m k := by
  induction ks with
  | nil => intro m k _; rfl
  | cons k2 rest ih =>
      intro m k hk
      simp only [List.mem_cons, not_or] at hk
      rw [List.foldl_cons, ih _ k hk.2, storeKey_apply]
      simp [hk.1]

theorem storeConfig_untouched (m : ConfigMap) (c : MarketConfigEntry)
    (k : String) (hk : k ∉ keysOf c) : storeConfig m c k = m k :=
  foldKeys_untouched c (keysOf c) m k hk

theorem foldKeys_sets (c : MarketConfigEntry) (ks : List String) :
    ∀ (m : ConfigMap) (k : String), m k = none → k ∈ ks →
      (ks.foldl (fun acc k2 => storeKey acc c k2) m) k = some c := by
  induction ks with
  | nil => intro m k _ hk; cases hk
  | cons k2 rest ih =>
      intro m k hnone hk
      rw [List.foldl_cons]
      by_cases he : k = k2
      · subst he
        have hs : storeKey m c k k = some c := by
          rw [storeKey_apply]
          simp [hnone]
        exact foldKeys_preserve c rest _ k c hs
      · have hs : storeKey m c k2 k = none := by
          rw [storeKey_apply]
          simp [he, hnone]
        have hkr : k ∈ rest := by
          rcases List.mem_cons.mp hk with h1 | h1
          · exact absurd h1 he
          · exact h1
        exact ih _ k hs hkr

theorem storeConfig_sets (m : ConfigMap) (c : MarketConfigEntry) (k : String)
    (hnone : m k = none) (hk : k ∈ keysOf c) : storeConfig m c k = some c :=
  foldKeys_sets c (keysOf c) m k hnone hk

theorem storeMainStep_preserve (m : ConfigMap) (c : MarketConfigEntry)
    (k : String) (v : MarketConfigEntry) (h : m k = some v) :
    storeMainStep m c k = some v := by
  unfold storeMainStep
  by_cases h4 : c.mt = 4
  · rw [if_pos h4]
    exact storeConfig_preserve m c k v h
  · rw [if_neg h4]
    exact h

theorem foldMain_preserve (l : List MarketConfigEntry) :
    ∀ (m : ConfigMap) (k : String) (v : MarketConfigEntry), m k = some v →
      (l.foldl storeMainStep m) k = some v := by
  induction l with
  | nil => intro m k v h; exact h
  | cons c rest ih =>
      intro m k v h
      rw [List.foldl_cons]
      exact ih _ k v (storeMainStep_preserve m c k v h)

theorem foldConfigs_preserve (l : List MarketConfigEntry) :
    ∀ (m : ConfigMap) (k : String) (v : MarketConfigEntry), m k = some v →
      (l.foldl storeConfig m) k = some v := by
  induction l with
  | nil => intro m k v h; exact h
  | cons c rest ih =>
      intro m k v h
      rw [List.foldl_cons]
      exact ih _ k v (storeConfig_preserve m c k v h)

theorem mainPass_sets (c : MarketConfigEntry) (k : String)
    (hmain : c.mt = 4) (hk : k ∈ keysOf c) :
    ∀ (l : List MarketConfigEntry) (m : ConfigMap), m k = none → c ∈ l →
      (∀ c2 ∈ l, c2.mt = 4 → k ∈ keysOf c2 → c2 = c) →
      (l.foldl storeMainStep m) k = some c := by
  intro l
  induction l with
  | nil => intro m _ hc _; cases hc
  | cons d rest ih =>
      intro m hnone hc huniq
      rw [List.foldl_cons]
      by_cases hd4 : d.mt = 4
      · by_cases hdk : k ∈ keysOf d
        · have hdc : d = c := huniq d (List.mem_cons_self d rest) hd4 hdk
          subst hdc
          have hset : storeMainStep m d k = some d := by
            unfold storeMainStep
            rw [if_pos hd4]
            exact storeConfig_sets m d k hnone hdk
          exact foldMain_preserve rest _ k d hset
        · have hnone2 : storeMainStep m d k = none := by
            unfold storeMainStep
            rw [if_pos hd4, storeConfig_untouched m d k hdk]
            exact hnone
          have hcrest : c ∈ rest := by
            rcases List.mem_cons.mp hc with rfl | h1
            · exact absurd hk hdk
            · exact h1
          exact ih _ hnone2 hcrest
            (fun c2 h2 => huniq c2 (List.mem_cons_of_mem d h2))
      · have hnone2 : storeMainStep m d k = none := by
          unfold storeMainStep
          rw [if_neg hd4]
          exact hnone
        have hcrest : c ∈ rest := by
          rcases List.mem_cons.mp hc with rfl | h1
          · exact absurd hmain hd4
          · exact h1
        exact ih _ hnone2 hcrest
          (fun c2 h2 => huniq c2 (List.mem_cons_of_mem d h2))

/-- C4: whenever exactly one main-typed (mt = 4) entry of the config list
registers under a key, the built lookup map stores that entry under the
key, however many non-main entries also register under it, and reversing
the config list does not change the winner; moreover storeConfig never
overwrites an already-registered key. -/
theorem C4_main_config_precedence (configs : List MarketConfigEntry)
    (c : MarketConfigEntry) (k : String) (hc : c ∈ configs) (hmain : c.mt = 4)
    (hk : k ∈ keysOf c)
    (huniq : ∀ c2 ∈ configs, c2.mt = 4 → k ∈ keysOf c2 → c2 = c) :
    buildMarketConfigMap configs k = some c
  ∧ buildMarketConfigMap configs.reverse k = some c
  ∧ (∀ (m : ConfigMap) (v d : MarketConfigEntry), m k = some v →
      storeConfig m d k = some v) := by
  have h1 : buildMarketConfigMap configs k = some c := by
    unfold buildMarketConfigMap
    exact foldConfigs_preserve configs _ k c
      (mainPass_sets c k hmain hk configs (fun _ => none) rfl hc huniq)
  have h2 : buildMarketConfigMap configs.reverse k = some c := by
    unfold buildMarketConfigMap
    exact foldConfigs_preserve configs.reverse _ k c
      (mainPass_sets c k hmain hk configs.reverse (fun _ => none) rfl
        (List.mem_reverse.mpr hc)
        (fun c2 h2 => huniq c2 (List.mem_reverse.mp h2)))
  exact ⟨h1, h2, fun m v d h => storeConfig_preserve m d k v h⟩

/-- C4 witness: with a non-main and a main entry colliding on subtype key
5, the main entry is stored under that key for the list and for its
reversal. -/
theorem C4_main_config_precedence_witness :
    buildMarketConfigMap
        [⟨5, 1, "other"⟩, ⟨5, 4, "main"⟩] ("5") = some ⟨5, 4, "main"⟩
  ∧ buildMarketConfigMap
        ([⟨5, 1, "other"⟩, ⟨5, 4, "main"⟩] : List MarketConfigEntry).reverse
        ("5") = some ⟨5, 4, "main"⟩ := by
  have h := C4_main_config_precedence [⟨5, 1, "other"⟩, ⟨5, 4, "main"⟩]
      ⟨5, 4, "main"⟩ ("5") (by decide) (by decide) (by decide) (by decide)
  exact ⟨h.1, h.2.1⟩

/-! ### Token manager -/

theorem tokenFallback_isSome (st : TokenState) (now : Int) :
    (tokenFallback st now).1.isSome = true := by
  unfold tokenFallback
  by_cases h : strTruthy st.sportradarToken = true ∧ st.tokenExpiry > now
  · rw [if_pos h]
    cases hst : st.sportradarToken with
    | none => rw [hst] at h; simp [strTruthy] at h
    | some tok => simp [hst]
  · rw [if_neg h]
    rfl

/-- C8 (amended): when extracting the embedded expiry claim from a
configured token fails to parse, the token acquisition function does not
throw, but neither does it return null: it still adopts and returns the
token, leaving the stored expiry unchanged; null is reserved for the
catch-all around an internal exception, which none of the performed
operations raises. -/
theorem C8_token_parse_failure (st : TokenState) (env : String) (now : Int)
    (henv : env ≠ "") (hparse : extractExp env = none) :
    (fetchSportradarToken st (some env) now).1 = some env
  ∧ (fetchSportradarToken st (some env) now).2.tokenExpiry = st.tokenExpiry := by
  unfold fetchSportradarToken
  dsimp only
  rw [if_neg henv]
  by_cases hr : st.sportradarToken = some env ∧ st.tokenExpiry > now
  · rw [if_pos hr]
    exact ⟨hr.1, rfl⟩
  · rw [if_neg hr]
    refine ⟨rfl, ?_⟩
    simp [tokenAdoptExpiry, hparse]

/-- C8 witness: a concrete token without any exp claim is still returned
with the stored expiry untouched. -/
theorem C8_token_parse_failure_witness :
    (fetchSportradarToken ⟨none, 0⟩ (some ("badtoken")) 5).1 = some ("badtoken")
  ∧ (fetchSportradarToken ⟨none, 0⟩ (some ("badtoken")) 5).2.tokenExpiry = 0 :=
  C8_token_parse_failure ⟨none, 0⟩ ("badtoken") 5 (by decide) rfl

/-- C8 counterexample: on the concrete input of a configured token with no
parsable expiry claim, the token acquisition function returns that token,
not null, refuting the claim that a parse failure yields null. -/
theorem C8_counterexample :
    extractExp ("no-expiry-claim") = none
  ∧ (fetchSportradarToken ⟨none, 0⟩ (some ("no-expiry-claim")) 5).1
      = some ("no-expiry-claim")
  ∧ (fetchSportradarToken ⟨none, 0⟩ (some ("no-expiry-claim")) 5).1 ≠ none := by
  exact ⟨rfl, rfl, by decide⟩

/-- C10: token acquisition always yields a token: the expiry comparison
gates only reuse of the stored token, and a newly adopted environment
token, or the hardcoded fallback when no environment token is configured,
is stored and returned with no condition on its parsed expiry. -/
theorem C10_token_adoption (st : TokenState) (envToken : Option String)
    (now : Int) :
    (fetchSportradarToken st envToken now).1.isSome = true
  ∧ (∀ env : String, envToken = some env → env ≠ "" →
      ¬(st.sportradarToken = some env ∧ st.tokenExpiry > now) →
      (fetchSportradarToken st envToken now).1 = some env
      ∧ (fetchSportradarToken st envToken now).2.sportradarToken = some env)
  ∧ (strTruthy envToken = false →
      ¬(strTruthy st.sportradarToken = true ∧ st.tokenExpiry > now) →
      (fetchSportradarToken st envToken now).1 = some hardcodedToken
      ∧ (fetchSportradarToken st envToken now).2.sportradarToken
          = some hardcodedToken) := by
  refine ⟨?_, ?_, ?_⟩
  · unfold fetchSportradarToken
    cases envToken with
    | none => exact tokenFallback_isSome st now
    | some env =>
        dsimp only
        by_cases he : env = ""
        · rw [if_pos he]
          exact tokenFallback_isSome st now
        · rw [if_neg he]
          by_cases hr : st.sportradarToken = some env ∧ st.tokenExpiry > now
          · rw [if_pos hr, hr.1]
            rfl
          · rw [if_neg hr]
            rfl
  · intro env heq henv hr
    subst heq
    unfold fetchSportradarToken
    dsimp only
    rw [if_neg henv, if_neg hr]
    exact ⟨rfl, rfl⟩
  · intro htr hr
    have hfb : (tokenFallback st now).1 = some hardcodedToken
        ∧ (tokenFallback st now).2.sportradarToken = some hardcodedToken := by
      unfold tokenFallback
      rw [if_neg hr]
      exact ⟨rfl, rfl⟩
    unfold fetchSportradarToken
    cases envToken with
    | none => exact hfb
    | some env =>
        dsimp only
        have he : env = "" := by
          simp [strTruthy] at htr
          exact htr
        rw [if_pos he]
        exact hfb

/-- C10 witness: a concrete environment token whose embedded exp claim is
far in the past is still adopted and returned; with no environment token
and no stored token, the hardcoded fallback is returned. -/
theorem C10_token_adoption_witness :
    (fetchSportradarToken ⟨none, 0⟩ (some ("exp=1~tail")) 999999999).1
        = some ("exp=1~tail")
  ∧ (fetchSportradarToken ⟨none, 0⟩ none 5).1 = some hardcodedToken := by
  refine ⟨((C10_token_adoption ⟨none, 0⟩ (some ("exp=1~tail")) 999999999).2.1
      ("exp=1~tail") rfl (by decide) (by decide)).1, ?_⟩
  exact ((C10_token_adoption ⟨none, 0⟩ none 5).2.2 rfl (by decide)).1

end Iddaa
